import Mathlib

/-!
# Verification of the `neural_testbed` leaderboard sweep enumeration and
# generative classification model

This development embeds, in Lean, the configuration data model and the sweep
enumeration code of `neural_testbed/leaderboard/sweep.py`, the SGMCMC agent
sweep of `neural_testbed/agents/factories/sweeps/testbed/sgmcmc.py`, and a
model of the generative classification environment
(`neural_testbed/generative/classification_envlikelihood.py`).

Conventions:
* Python `float` hyperparameters become `ℚ` (the sweeps only ever compare
  literals for equality, which is exact for the literals involved).
* Python `int` seeds become `ℤ`, counts become `ℕ`.
* A Python `dict` built by enumeration becomes an association list
  `List (String × _)` in insertion order.
* Optional dataclass fields that are never set become `Option _` with
  `none` for the Python default `None`.
-/

namespace NeuralTestbed

/-- An exact rational written as an explicit reduced fraction
(numerator `n`, denominator `d`), so that every hyperparameter value
evaluates by kernel reduction.  `ratLit_eq` shows it equals `n / d`. -/
def ratLit (n : ℤ) (d : ℕ) (h1 : d ≠ 0 := by decide)
    (h2 : n.natAbs.Coprime d := by decide) : ℚ := ⟨n, d, h1, h2⟩

theorem ratLit_eq (n : ℤ) (d : ℕ) (h1 : d ≠ 0) (h2 : n.natAbs.Coprime d) :
    ratLit n d h1 h2 = (n : ℚ) / (d : ℚ) := by
  rw [ratLit, Rat.mk'_eq_divInt, Rat.divInt_eq_div]
  norm_num

/-- `base.PriorKnowledge` dataclass, with the fields constructed by the
sweeps in `leaderboard/sweep.py`.  The optional float fields `noise_std` and
`temperature` default to `None` (here `none`). -/
structure PriorKnowledge where
  input_dim : ℕ
  num_train : ℕ
  tau : ℕ
  num_classes : ℕ
  layers : ℕ
  noise_std : Option ℚ := none
  temperature : Option ℚ := none
  deriving DecidableEq

/-- The `test_distribution` field of `ProblemConfig` holds one of the two
module-level sampler constructors; Python compares them by object identity,
modelled as a two-value enumeration. -/
inductive TestDistCtor where
  | gaussian_sampler : TestDistCtor
  | polyadic_sampler : TestDistCtor
  deriving DecidableEq

/-- `ProblemConfig` dataclass of `leaderboard/sweep.py` with its field
defaults.  `logit_ctor : Optional[LogitCtor]` is only ever `None` in the
sweeps, modelled as `Option Unit`. -/
structure ProblemConfig where
  prior_knowledge : PriorKnowledge
  seed : ℤ
  logit_ctor : Option Unit := none
  test_distribution : TestDistCtor := TestDistCtor.gaussian_sampler
  num_test_seeds : ℕ := 1000
  num_enn_samples : ℕ := 1000
  num_test_cache : ℕ := 1000
  epistemic_only : Bool := false
  deriving DecidableEq

/-- `SEPARATOR` of `leaderboard/sweep.py`. -/
def SEPARATOR : String := "/"

/-- A problem id `f'{sweep_name}{SEPARATOR}{index}'`. -/
def probId (name : String) (i : ℕ) : String :=
  name ++ SEPARATOR ++ toString i

/-- `{f'{name}{SEPARATOR}{i}': v for i, v in enumerate(configs)}`:
the dict comprehension enumerating a list of configs into a sweep. -/
def enumerateSweep (name : String) (configs : List ProblemConfig) :
    List (String × ProblemConfig) :=
  configs.enum.map (fun p => (probId name p.1, p.2))

/-- One pass of the innermost seed loop body: increment the running seed and
append the config built from it (`seed += 1; configs.append(... seed ...)`). -/
def seedStep (mkc : ℤ → ProblemConfig) (acc : ℤ × List ProblemConfig) (_ : ℕ) :
    ℤ × List ProblemConfig :=
  (acc.1 + 1, acc.2 ++ [mkc (acc.1 + 1)])

/-- The nested `for` loops of the sweeps: iterate over the cartesian list of
hyperparameters `ps` (outer loops) and `num_seed` repetitions (innermost
loop), threading the mutable `seed` counter through every iteration. -/
def seedFold {P : Type} (mk : P → ℤ → ProblemConfig) (num_seed : ℕ)
    (ps : List P) (start : ℤ × List ProblemConfig) : ℤ × List ProblemConfig :=
  ps.foldl (fun acc p => (List.range num_seed).foldl (seedStep (mk p)) acc) start

/-- The config appended by one iteration of `regression_sweep`. -/
def regressionConfig (input_dim data_ratio : ℕ) (noise_std : ℚ) (seed : ℤ) :
    ProblemConfig :=
  { prior_knowledge :=
      { input_dim := input_dim
        num_train := data_ratio * input_dim
        noise_std := some noise_std
        num_classes := 1
        tau := 1
        layers := 1 }
    seed := seed
    num_enn_samples := 100 }

/-- Cartesian list of the outer loops of `regression_sweep`:
`input_dim in [1, 10, 100]`, `data_ratio in [1, 10, 100]`,
`noise_std in [0.01, 0.1, 1]`, in loop order. -/
def regressionParams : List (ℕ × ℕ × ℚ) :=
  ([1, 10, 100] : List ℕ).flatMap (fun input_dim =>
    ([1, 10, 100] : List ℕ).flatMap (fun data_ratio =>
      ([ratLit 1 100, ratLit 1 10, 1] : List ℚ).map (fun noise_std =>
        (input_dim, data_ratio, noise_std))))

/-- The `configs` list built by `regression_sweep`. -/
def regression_sweep_configs (num_seed : ℕ := 10) (initial_seed : ℤ := 0) :
    List ProblemConfig :=
  (seedFold (fun p s => regressionConfig p.1 p.2.1 p.2.2 s) num_seed
    regressionParams (initial_seed, [])).2

/-- `regression_sweep` of `leaderboard/sweep.py`. -/
def regression_sweep (num_seed : ℕ := 10) (initial_seed : ℤ := 0) :
    List (String × ProblemConfig) :=
  enumerateSweep "regression" (regression_sweep_configs num_seed initial_seed)

/-- The config appended by one iteration of `classification_sweep`. -/
def classificationConfig (tau input_dim data_ratio : ℕ) (temperature : ℚ)
    (seed : ℤ) : ProblemConfig :=
  { prior_knowledge :=
      { input_dim := input_dim
        num_train := data_ratio * input_dim
        num_classes := 2
        tau := tau
        layers := 2
        temperature := some temperature }
    seed := seed
    test_distribution := TestDistCtor.polyadic_sampler }

/-- Cartesian list of the loops of `classification_sweep` inside the `tau`
loop: `input_dim in [2, 10, 100]`, `data_ratio in [1, 10, 100, 1000]`,
`temperature in [0.01, 0.1, 0.5]`, in loop order. -/
def classificationParams : List (ℕ × ℕ × ℚ) :=
  ([2, 10, 100] : List ℕ).flatMap (fun input_dim =>
    ([1, 10, 100, 1000] : List ℕ).flatMap (fun data_ratio =>
      ([ratLit 1 100, ratLit 1 10, ratLit 1 2] : List ℚ).map (fun temperature =>
        (input_dim, data_ratio, temperature))))

/-- The configs generated by `classification_sweep` for one value of `tau`
(the seed counter is reset to `initial_seed` at the start of each `tau`
iteration). -/
def classificationTauBlock (tau : ℕ) (num_seed : ℕ) (initial_seed : ℤ) :
    List ProblemConfig :=
  (seedFold (fun p s => classificationConfig tau p.1 p.2.1 p.2.2 s) num_seed
    classificationParams (initial_seed, [])).2

/-- The `configs` list built by `classification_sweep`. -/
def classification_sweep_configs (num_seed : ℕ := 5) (initial_seed : ℤ := 0) :
    List ProblemConfig :=
  ([1, 10] : List ℕ).flatMap
    (fun tau => classificationTauBlock tau num_seed initial_seed)

/-- `classification_sweep` of `leaderboard/sweep.py`. -/
def classification_sweep (num_seed : ℕ := 5) (initial_seed : ℤ := 0) :
    List (String × ProblemConfig) :=
  enumerateSweep "classification"
    (classification_sweep_configs num_seed initial_seed)

/-- The config appended by one iteration of `classification_2d_sweep`. -/
def classification2dConfig (tau num_train : ℕ) (temperature : ℚ) (seed : ℤ) :
    ProblemConfig :=
  { prior_knowledge :=
      { input_dim := 2
        num_train := num_train
        num_classes := 2
        tau := tau
        layers := 2
        temperature := some temperature }
    seed := seed }

/-- Cartesian list of the loops of `classification_2d_sweep` inside the `tau`
loop: `num_train in [1, 3, 10, 30, 100, 300, 1000]`,
`temperature in [0.01, 0.1, 0.5]`, in loop order. -/
def classification2dParams : List (ℕ × ℚ) :=
  ([1, 3, 10, 30, 100, 300, 1000] : List ℕ).flatMap (fun num_train =>
    ([ratLit 1 100, ratLit 1 10, ratLit 1 2] : List ℚ).map (fun temperature =>
      (num_train, temperature)))

/-- The configs generated by `classification_2d_sweep` for one value of `tau`
(seed counter reset per `tau`, as in `classification_sweep`). -/
def classification2dTauBlock (tau : ℕ) (num_seed : ℕ) (initial_seed : ℤ) :
    List ProblemConfig :=
  (seedFold (fun p s => classification2dConfig tau p.1 p.2 s) num_seed
    classification2dParams (initial_seed, [])).2

/-- The `configs` list built by `classification_2d_sweep`. -/
def classification_2d_sweep_configs (num_seed : ℕ := 10)
    (initial_seed : ℤ := 0) : List ProblemConfig :=
  ([1, 10] : List ℕ).flatMap
    (fun tau => classification2dTauBlock tau num_seed initial_seed)

/-- `classification_2d_sweep` of `leaderboard/sweep.py`. -/
def classification_2d_sweep (num_seed : ℕ := 10) (initial_seed : ℤ := 0) :
    List (String × ProblemConfig) :=
  enumerateSweep "classification_2d"
    (classification_2d_sweep_configs num_seed initial_seed)

/-- `_filter_unique_configs` of `leaderboard/sweep.py`: keep the configs
passing `filter_fn`, skipping any config already observed (Python keeps an
`observed_configs` set next to the output list; both grow together). -/
def filter_unique_configs (configs : List ProblemConfig)
    (filter_fn : ProblemConfig → Bool) : List ProblemConfig :=
  (configs.foldl
    (fun (acc : List ProblemConfig × List ProblemConfig) c =>
      if filter_fn c then
        (if c ∈ acc.1 then acc else (acc.1 ++ [c], acc.2 ++ [c]))
      else acc)
    ([], [])).2

/-- `regression_test_sweep` of `leaderboard/sweep.py`. -/
def regression_test_sweep : List (String × ProblemConfig) :=
  enumerateSweep "regression_test"
    (filter_unique_configs (regression_sweep_configs 1)
      (fun x =>
        x.prior_knowledge.noise_std == some (ratLit 1 10)
          && x.prior_knowledge.input_dim == 10
          && x.prior_knowledge.num_train == 10
          && x.prior_knowledge.tau == 1))

/-- `classification_test_sweep` of `leaderboard/sweep.py`. -/
def classification_test_sweep : List (String × ProblemConfig) :=
  enumerateSweep "classification_test"
    (filter_unique_configs (classification_sweep_configs 1)
      (fun x =>
        x.prior_knowledge.temperature == some (ratLit 1 100)
          && x.prior_knowledge.tau == 1
          && x.prior_knowledge.input_dim == 2))

/-- `classification_2d_test_sweep` of `leaderboard/sweep.py`. -/
def classification_2d_test_sweep : List (String × ProblemConfig) :=
  enumerateSweep "classification_2d_test"
    (filter_unique_configs (classification_2d_sweep_configs 1)
      (fun x =>
        x.prior_knowledge.temperature == some (ratLit 1 100)
          && x.prior_knowledge.tau == 1))

/-- `dataclasses.replace(problem_config, epistemic_only=True)`. -/
def withEpistemicOnly (c : ProblemConfig) : ProblemConfig :=
  { c with epistemic_only := true }

/-- `enn_paper_sweep` of `leaderboard/sweep.py`: the default regression
sweep with `epistemic_only` replaced by `True`. -/
def enn_paper_sweep : List (String × ProblemConfig) :=
  enumerateSweep "enn_paper" ((regression_sweep_configs).map withEpistemicOnly)

/-- `enn_paper_test_sweep` of `leaderboard/sweep.py`. -/
def enn_paper_test_sweep : List (String × ProblemConfig) :=
  enumerateSweep "enn_paper_test"
    ((filter_unique_configs (regression_sweep_configs 1)
        (fun x => x.prior_knowledge.noise_std == some (ratLit 1 10))).map
      withEpistemicOnly)

/-- The key set of a sweep dictionary. -/
def sweepKeys (sweep : List (String × ProblemConfig)) : List String :=
  sweep.map Prod.fst

/-- The recursion of `_merge_without_overwrite`: fold the sweeps into the
accumulated `settings` dict, raising `KeyError` (= `none`) as soon as an
incoming sweep shares a key with the accumulated settings; otherwise
`settings.update(sweep)`, which for disjoint keys is list append. -/
def mergeAux : List (String × ProblemConfig) →
    List (List (String × ProblemConfig)) →
    Option (List (String × ProblemConfig))
  | settings, [] => some settings
  | settings, sweep :: rest =>
      if sweep.any (fun kv => settings.any (fun kv2 => kv2.1 == kv.1)) then
        none
      else
        mergeAux (settings ++ sweep) rest

/-- `_merge_without_overwrite` of `leaderboard/sweep.py`. -/
def merge_without_overwrite (sweeps : List (List (String × ProblemConfig))) :
    Option (List (String × ProblemConfig)) :=
  mergeAux [] sweeps

/-- The eight component sweeps merged into `SETTINGS`, in source order. -/
def SETTINGS_sweeps : List (List (String × ProblemConfig)) :=
  [regression_sweep, regression_test_sweep, enn_paper_sweep,
   enn_paper_test_sweep, classification_sweep, classification_test_sweep,
   classification_2d_sweep, classification_2d_test_sweep]

/-- `SETTINGS` of `leaderboard/sweep.py` (`none` would mean the `KeyError`
was raised). -/
def SETTINGS : Option (List (String × ProblemConfig)) :=
  merge_without_overwrite SETTINGS_sweeps

/-- Modelled from the spec: the `SGMCMCConfig` dataclass of
`neural_testbed/agents/factories/sgmcmc.py` is not part of the sources; only
the fields set by the sweeps in
`agents/factories/sweeps/testbed/sgmcmc.py` are modelled, with `none`
standing for a field left at its (unknown) dataclass default. -/
structure SGMCMCConfig where
  learning_rate : ℚ
  prior_variance : ℚ
  adaptive_prior_variance : Bool
  alg_temperature : Option ℚ := none
  momentum_decay : Option ℚ := none
  deriving DecidableEq

/-- `sgld_sweep` of `sweeps/testbed/sgmcmc.py`. -/
def sgld_sweep : List SGMCMCConfig :=
  ([ratLit 1 2000, ratLit 1 1000, ratLit 1 200] : List ℚ).foldl
    (fun acc learning_rate =>
      ([ratLit 1 20, ratLit 1 10, ratLit 1 2, 1, 2, 10] : List ℚ).foldl
        (fun acc2 prior_variance =>
          acc2 ++ [{ learning_rate := learning_rate
                     prior_variance := prior_variance
                     adaptive_prior_variance := true }])
        acc)
    []

/-- `momentum_sgld_sweep` of `sweeps/testbed/sgmcmc.py`. -/
def momentum_sgld_sweep : List SGMCMCConfig :=
  ([ratLit 1 2000, ratLit 1 1000, ratLit 1 200] : List ℚ).foldl
    (fun acc learning_rate =>
      ([ratLit 1 20, ratLit 1 10, ratLit 1 2, 1, 2, 10] : List ℚ).foldl
        (fun acc2 prior_variance =>
          acc2 ++ [{ learning_rate := learning_rate
                     prior_variance := prior_variance
                     adaptive_prior_variance := true
                     alg_temperature := some 1
                     momentum_decay := some (ratLit 9 10) }])
        acc)
    []

/-- `combined_sweep` of `sweeps/testbed/sgmcmc.py`. -/
def combined_sweep : List SGMCMCConfig :=
  sgld_sweep ++ momentum_sgld_sweep

/-! ## Characterisation of the seed-threading loops -/

/-- Closed form of the configs produced by `seedFold`, one block of
`n` seed repetitions per hyperparameter tuple, the seed counter running on
across blocks. -/
def seedBlocks {P : Type} (mk : P → ℤ → ProblemConfig) (n : ℕ) :
    ℤ → List P → List ProblemConfig
  | _, [] => []
  | s, p :: ps =>
      ((List.range n).map fun j : ℕ => mk p (s + 1 + (j : ℤ)))
        ++ seedBlocks mk n (s + n) ps

theorem foldl_seedStep (mkc : ℤ → ProblemConfig) (n : ℕ) (s : ℤ)
    (l : List ProblemConfig) :
    (List.range n).foldl (seedStep mkc) (s, l)
      = (s + n, l ++ (List.range n).map (fun j : ℕ => mkc (s + 1 + (j : ℤ)))) := by
  induction n with
  | zero => simp
  | succ m ih =>
      rw [List.range_succ, List.foldl_append, ih]
      simp only [List.foldl_cons, List.foldl_nil, seedStep, List.map_append,
        List.map_cons, List.map_nil, Prod.mk.injEq]
      have harg : s + (m : ℤ) + 1 = s + 1 + (m : ℤ) := by ring
      rw [List.append_assoc, harg]
      exact ⟨by push_cast; ring, rfl⟩

theorem seedFold_eq {P : Type} (mk : P → ℤ → ProblemConfig) (n : ℕ) :
    ∀ (ps : List P) (s : ℤ) (l : List ProblemConfig),
      seedFold mk n ps (s, l)
        = (s + ps.length * n, l ++ seedBlocks mk n s ps) := by
  intro ps
  induction ps with
  | nil => intro s l; simp [seedFold, seedBlocks]
  | cons p ps ih =>
      intro s l
      have hstep : seedFold mk n (p :: ps) (s, l)
          = seedFold mk n ps ((List.range n).foldl (seedStep (mk p)) (s, l)) :=
        rfl
      rw [hstep, foldl_seedStep, ih, seedBlocks]
      simp only [Prod.mk.injEq, List.length_cons, List.append_assoc]
      refine ⟨by push_cast; ring, by simp⟩

theorem seedBlocks_length {P : Type} (mk : P → ℤ → ProblemConfig) (n : ℕ) :
    ∀ (ps : List P) (s : ℤ), (seedBlocks mk n s ps).length = ps.length * n := by
  intro ps
  induction ps with
  | nil => intro s; simp [seedBlocks]
  | cons p ps ih =>
      intro s
      rw [seedBlocks]
      simp [ih]
      ring

theorem seedBlocks_getElem? {P : Type} (mk : P → ℤ → ProblemConfig) (n : ℕ) :
    ∀ (ps : List P) (s : ℤ) (i : ℕ) (c : ProblemConfig),
      (seedBlocks mk n s ps)[i]? = some c →
        ∃ p ∈ ps, c = mk p (s + 1 + (i : ℤ)) := by
  intro ps
  induction ps with
  | nil => intro s i c h; simp [seedBlocks] at h
  | cons p ps ih =>
      intro s i c h
      rw [seedBlocks] at h
      by_cases hi : i < n
      · rw [List.getElem?_append_left (by simpa using hi)] at h
        rw [List.getElem?_map] at h
        rw [List.getElem?_range hi] at h
        simp only [Option.map_some', Option.some.injEq] at h
        exact ⟨p, List.mem_cons_self p ps, h.symm⟩
      · push_neg at hi
        rw [List.getElem?_append_right (by simpa using hi)] at h
        simp only [List.length_map, List.length_range] at h
        obtain ⟨q, hq, hc⟩ := ih (s + n) (i - n) c h
        refine ⟨q, List.mem_cons_of_mem p hq, ?_⟩
        rw [hc]
        congr 1
        have : ((i - n : ℕ) : ℤ) = (i : ℤ) - (n : ℤ) := by
          exact_mod_cast Int.ofNat_sub hi
        rw [this]
        ring

theorem seedBlocks_getElem?_of_lt {P : Type} (mk : P → ℤ → ProblemConfig)
    (n : ℕ) :
    ∀ (ps : List P) (s : ℤ) (i : ℕ), i < ps.length * n →
      ∃ p ∈ ps, (seedBlocks mk n s ps)[i]? = some (mk p (s + 1 + (i : ℤ))) := by
  intro ps
  induction ps with
  | nil => intro s i h; simp at h
  | cons p ps ih =>
      intro s i h
      rw [seedBlocks]
      by_cases hi : i < n
      · refine ⟨p, List.mem_cons_self p ps, ?_⟩
        rw [List.getElem?_append_left (by simpa using hi)]
        rw [List.getElem?_map, List.getElem?_range hi]
        rfl
      · push_neg at hi
        have hlt : i - n < ps.length * n := by
          simp only [List.length_cons, Nat.succ_mul] at h
          omega
        obtain ⟨q, hq, hgot⟩ := ih (s + n) (i - n) hlt
        refine ⟨q, List.mem_cons_of_mem p hq, ?_⟩
        rw [List.getElem?_append_right (by simpa using hi)]
        simp only [List.length_map, List.length_range]
        rw [hgot]
        congr 2
        have : ((i - n : ℕ) : ℤ) = (i : ℤ) - (n : ℤ) := by
          exact_mod_cast Int.ofNat_sub hi
        rw [this]
        ring

theorem seedBlocks_mem {P : Type} (mk : P → ℤ → ProblemConfig) (n : ℕ) :
    ∀ (ps : List P) (s : ℤ) (c : ProblemConfig), c ∈ seedBlocks mk n s ps →
      ∃ p ∈ ps, ∃ z : ℤ, c = mk p z := by
  intro ps
  induction ps with
  | nil => intro s c h; simp [seedBlocks] at h
  | cons p ps ih =>
      intro s c h
      rw [seedBlocks, List.mem_append] at h
      rcases h with h | h
      · obtain ⟨j, _, hj⟩ := List.mem_map.1 h
        exact ⟨p, List.mem_cons_self p ps, s + 1 + (j : ℤ), hj.symm⟩
      · obtain ⟨q, hq, z, hz⟩ := ih (s + n) c h
        exact ⟨q, List.mem_cons_of_mem p hq, z, hz⟩

/-! ## Keys of an enumerated sweep -/

theorem enumerateSweep_length (name : String) (cs : List ProblemConfig) :
    (enumerateSweep name cs).length = cs.length := by
  simp [enumerateSweep]

theorem enumerateSweep_keys (name : String) (cs : List ProblemConfig) :
    (enumerateSweep name cs).map Prod.fst
      = (List.range cs.length).map (probId name) := by
  rw [enumerateSweep, List.map_map, ← List.enum_map_fst cs, List.map_map]
  rfl

theorem enumerateSweep_getElem? (name : String) (cs : List ProblemConfig)
    (i : ℕ) : (enumerateSweep name cs)[i]?
      = cs[i]?.map (fun c => (probId name i, c)) := by
  rw [enumerateSweep, List.getElem?_map, List.getElem?_enum]
  cases cs[i]? <;> rfl


/-! ## C3: the regression sweep -/

theorem regression_sweep_configs_eq (n : ℕ) (s : ℤ) :
    regression_sweep_configs n s
      = seedBlocks (fun p z => regressionConfig p.1 p.2.1 p.2.2 z) n s
          regressionParams := by
  rw [regression_sweep_configs, seedFold_eq, List.nil_append]

theorem regressionParams_length : regressionParams.length = 27 := by decide

/-- C3: `regression_sweep(num_seed, initial_seed)` returns `27 * num_seed`
entries with keys `regression/0` through `regression/{27*num_seed-1}` in
order; the `i`-th config has `seed = initial_seed + 1 + i`, its
`input_dim`, `data_ratio` and `noise_std` drawn from the nested loops over
`[1, 10, 100]`, `[1, 10, 100]` and `[0.01, 0.1, 1]`, with
`num_train = data_ratio * input_dim`, `num_classes = 1`, `tau = 1`,
`layers = 1` and `num_enn_samples = 100`. -/
theorem C3_regression_sweep (num_seed : ℕ) (initial_seed : ℤ) :
    (regression_sweep num_seed initial_seed).length = 27 * num_seed
    ∧ (regression_sweep num_seed initial_seed).map Prod.fst
        = (List.range (27 * num_seed)).map
            (fun i => "regression/" ++ toString i)
    ∧ ∀ (i : ℕ) (c : ProblemConfig),
        (regression_sweep_configs num_seed initial_seed)[i]? = some c →
          c.seed = initial_seed + 1 + (i : ℤ)
          ∧ (∃ input_dim ∈ ([1, 10, 100] : List ℕ),
              ∃ data_ratio ∈ ([1, 10, 100] : List ℕ),
              ∃ noise_std ∈ ([1/100, 1/10, 1] : List ℚ),
                c.prior_knowledge.input_dim = input_dim
                ∧ c.prior_knowledge.num_train = data_ratio * input_dim
                ∧ c.prior_knowledge.noise_std = some noise_std)
          ∧ c.prior_knowledge.num_classes = 1
          ∧ c.prior_knowledge.tau = 1
          ∧ c.prior_knowledge.layers = 1
          ∧ c.num_enn_samples = 100 := by
  have hlen : (regression_sweep_configs num_seed initial_seed).length
      = 27 * num_seed := by
    rw [regression_sweep_configs_eq, seedBlocks_length, regressionParams_length]
  refine ⟨?_, ?_, ?_⟩
  · rw [regression_sweep, enumerateSweep_length, hlen]
  · rw [regression_sweep, enumerateSweep_keys, hlen]
    rfl
  · intro i c h
    rw [regression_sweep_configs_eq] at h
    obtain ⟨p, hp, hc⟩ := seedBlocks_getElem? _ _ _ _ _ _ h
    simp only [regressionParams, List.mem_flatMap, List.mem_map,
      List.mem_cons, List.not_mem_nil, or_false] at hp
    obtain ⟨a, ha, b, hb, q, hq, hpab⟩ := hp
    subst hpab
    subst hc
    refine ⟨rfl, ⟨a, by simpa using ha, b, by simpa using hb, q, ?_, rfl, rfl, rfl⟩,
      rfl, rfl, rfl, rfl⟩
    rcases hq with h1 | h1 | h1 <;> subst h1 <;>
      norm_num [ratLit_eq, List.mem_cons]


/-- Witness for C3 at `num_seed = 1`, `initial_seed = 0`, `i = 0`. -/
theorem C3_regression_sweep_witness :
    (regressionConfig 1 1 (ratLit 1 100) 1).seed = (0 : ℤ) + 1 + ((0 : ℕ) : ℤ) :=
  ((C3_regression_sweep 1 0).2.2 0 (regressionConfig 1 1 (ratLit 1 100) 1)
    (by decide)).1

/-! ## C4: the classification sweep -/

theorem classificationTauBlock_eq (tau n : ℕ) (s : ℤ) :
    classificationTauBlock tau n s
      = seedBlocks (fun p z => classificationConfig tau p.1 p.2.1 p.2.2 z) n s
          classificationParams := by
  rw [classificationTauBlock, seedFold_eq, List.nil_append]

theorem classificationParams_length : classificationParams.length = 36 := by
  decide

theorem classification_sweep_configs_length (n : ℕ) (s : ℤ) :
    (classification_sweep_configs n s).length = 72 * n := by
  rw [classification_sweep_configs]
  simp only [List.flatMap_cons, List.flatMap_nil, List.append_nil,
    List.length_append, classificationTauBlock_eq, seedBlocks_length,
    classificationParams_length]
  ring

/-- C4: `classification_sweep(num_seed, initial_seed)` returns
`72 * num_seed` entries with keys `classification/0` through
`classification/{72*num_seed-1}`, enumerated by nested loops over
`tau in [1, 10]`, `input_dim in [2, 10, 100]`,
`data_ratio in [1, 10, 100, 1000]`, `temperature in [0.01, 0.1, 0.5]` and
`num_seed` seed increments; every config has `num_classes = 2`,
`layers = 2`, `num_train = data_ratio * input_dim` and
`test_distribution = make_polyadic_sampler`. -/
theorem C4_classification_sweep (num_seed : ℕ) (initial_seed : ℤ) :
    (classification_sweep num_seed initial_seed).length = 72 * num_seed
    ∧ (classification_sweep num_seed initial_seed).map Prod.fst
        = (List.range (72 * num_seed)).map
            (fun i => "classification/" ++ toString i)
    ∧ ∀ c ∈ classification_sweep_configs num_seed initial_seed,
        c.prior_knowledge.num_classes = 2
        ∧ c.prior_knowledge.layers = 2
        ∧ (∃ tau ∈ ([1, 10] : List ℕ), c.prior_knowledge.tau = tau)
        ∧ (∃ input_dim ∈ ([2, 10, 100] : List ℕ),
            ∃ data_ratio ∈ ([1, 10, 100, 1000] : List ℕ),
            ∃ temperature ∈ ([1/100, 1/10, 1/2] : List ℚ),
              c.prior_knowledge.input_dim = input_dim
              ∧ c.prior_knowledge.num_train = data_ratio * input_dim
              ∧ c.prior_knowledge.temperature = some temperature)
        ∧ c.test_distribution = TestDistCtor.polyadic_sampler := by
  refine ⟨?_, ?_, ?_⟩
  · rw [classification_sweep, enumerateSweep_length,
      classification_sweep_configs_length]
  · rw [classification_sweep, enumerateSweep_keys,
      classification_sweep_configs_length]
    rfl
  · intro c hc
    rw [classification_sweep_configs] at hc
    obtain ⟨tau, htau, hblock⟩ := List.mem_flatMap.1 hc
    rw [classificationTauBlock_eq] at hblock
    obtain ⟨p, hp, z, hcz⟩ := seedBlocks_mem _ _ _ _ _ hblock
    simp only [classificationParams, List.mem_flatMap, List.mem_map,
      List.mem_cons, List.not_mem_nil, or_false] at hp
    obtain ⟨a, ha, b, hb, q, hq, hpab⟩ := hp
    subst hpab
    subst hcz
    refine ⟨rfl, rfl, ⟨tau, htau, rfl⟩,
      ⟨a, by simpa using ha, b, by simpa using hb, q, ?_, rfl, rfl, rfl⟩, rfl⟩
    rcases hq with h1 | h1 | h1 <;> subst h1 <;>
      norm_num [ratLit_eq, List.mem_cons]

/-- Witness for C4 at `num_seed = 1`, `initial_seed = 0` and the first
generated config. -/
theorem C4_classification_sweep_witness :
    (classificationConfig 1 2 1 (ratLit 1 100) 1).prior_knowledge.num_classes
      = 2 :=
  ((C4_classification_sweep 1 0).2.2 (classificationConfig 1 2 1 (ratLit 1 100) 1)
    (by decide)).1


/-! ## C6: the SGMCMC agent sweep -/

/-- C6: `combined_sweep()` is `sgld_sweep()` followed by
`momentum_sgld_sweep()`, 36 configs in total; each part enumerates
`learning_rate in [5e-4, 1e-3, 5e-3]` (outer) and
`prior_variance in [0.05, 0.1, 0.5, 1, 2, 10]` (inner) with
`adaptive_prior_variance = True`, the momentum part additionally setting
`alg_temperature = 1` and `momentum_decay = 0.9`. -/
theorem C6_combined_sweep :
    combined_sweep = sgld_sweep ++ momentum_sgld_sweep
    ∧ sgld_sweep.length = 18
    ∧ momentum_sgld_sweep.length = 18
    ∧ combined_sweep.length = 36
    ∧ sgld_sweep
        = ([1/2000, 1/1000, 1/200] : List ℚ).flatMap (fun lr =>
            ([1/20, 1/10, 1/2, 1, 2, 10] : List ℚ).map (fun pv =>
              { learning_rate := lr
                prior_variance := pv
                adaptive_prior_variance := true }))
    ∧ momentum_sgld_sweep
        = ([1/2000, 1/1000, 1/200] : List ℚ).flatMap (fun lr =>
            ([1/20, 1/10, 1/2, 1, 2, 10] : List ℚ).map (fun pv =>
              { learning_rate := lr
                prior_variance := pv
                adaptive_prior_variance := true
                alg_temperature := some 1
                momentum_decay := some (9/10) })) := by
  rw [show (1/2000 : ℚ) = ratLit 1 2000 by rw [ratLit_eq]; norm_num,
    show (1/1000 : ℚ) = ratLit 1 1000 by rw [ratLit_eq]; norm_num,
    show (1/200 : ℚ) = ratLit 1 200 by rw [ratLit_eq]; norm_num,
    show (1/20 : ℚ) = ratLit 1 20 by rw [ratLit_eq]; norm_num,
    show (1/10 : ℚ) = ratLit 1 10 by rw [ratLit_eq]; norm_num,
    show (1/2 : ℚ) = ratLit 1 2 by rw [ratLit_eq]; norm_num,
    show (9/10 : ℚ) = ratLit 9 10 by rw [ratLit_eq]; norm_num]
  refine ⟨rfl, by decide, by decide, by decide, by decide, by decide⟩


/-! ## C10: the ENN paper sweep -/

/-- C10: for every index `i`, the entry of `enn_paper_sweep()` at position
`i` has key `enn_paper/{i}` and its config equals the config of
`regression_sweep()` at key `regression/{i}` with `epistemic_only` replaced
by `True` and every other field unchanged. -/
theorem C10_enn_paper_sweep (i : ℕ) :
    (enn_paper_sweep[i]?).map Prod.fst
        = (regression_sweep[i]?).map (fun _ => "enn_paper/" ++ toString i)
    ∧ (regression_sweep[i]?).map Prod.fst
        = (regression_sweep[i]?).map (fun _ => "regression/" ++ toString i)
    ∧ (enn_paper_sweep[i]?).map (fun kv => kv.2.epistemic_only)
        = (regression_sweep[i]?).map (fun _ => true)
    ∧ (enn_paper_sweep[i]?).map (fun kv => kv.2.prior_knowledge)
        = (regression_sweep[i]?).map (fun kv => kv.2.prior_knowledge)
    ∧ (enn_paper_sweep[i]?).map (fun kv => kv.2.seed)
        = (regression_sweep[i]?).map (fun kv => kv.2.seed)
    ∧ (enn_paper_sweep[i]?).map (fun kv => kv.2.logit_ctor)
        = (regression_sweep[i]?).map (fun kv => kv.2.logit_ctor)
    ∧ (enn_paper_sweep[i]?).map (fun kv => kv.2.test_distribution)
        = (regression_sweep[i]?).map (fun kv => kv.2.test_distribution)
    ∧ (enn_paper_sweep[i]?).map (fun kv => kv.2.num_test_seeds)
        = (regression_sweep[i]?).map (fun kv => kv.2.num_test_seeds)
    ∧ (enn_paper_sweep[i]?).map (fun kv => kv.2.num_enn_samples)
        = (regression_sweep[i]?).map (fun kv => kv.2.num_enn_samples)
    ∧ (enn_paper_sweep[i]?).map (fun kv => kv.2.num_test_cache)
        = (regression_sweep[i]?).map (fun kv => kv.2.num_test_cache) := by
  rw [enn_paper_sweep, regression_sweep, enumerateSweep_getElem?,
    enumerateSweep_getElem?, List.getElem?_map]
  cases (regression_sweep_configs 10 0)[i]? <;>
    simp [probId, withEpistemicOnly, SEPARATOR]


/-! ## C9: seed reset per tau block -/

theorem seedBlocks_seed_getElem? {P : Type} (mk : P → ℤ → ProblemConfig)
    (n : ℕ) (hmk : ∀ p z, (mk p z).seed = z) (ps : List P) (s : ℤ) (i : ℕ) :
    ((seedBlocks mk n s ps)[i]?).map ProblemConfig.seed
      = if i < ps.length * n then some (s + 1 + (i : ℤ)) else none := by
  by_cases hi : i < ps.length * n
  · obtain ⟨p, _, hget⟩ := seedBlocks_getElem?_of_lt mk n ps s i hi
    rw [hget, if_pos hi, Option.map_some', hmk]
  · rw [List.getElem?_eq_none, if_neg hi, Option.map_none']
    rw [seedBlocks_length]
    omega

theorem classification2dTauBlock_eq (tau n : ℕ) (s : ℤ) :
    classification2dTauBlock tau n s
      = seedBlocks (fun p z => classification2dConfig tau p.1 p.2 z) n s
          classification2dParams := by
  rw [classification2dTauBlock, seedFold_eq, List.nil_append]

/-- C9: in `classification_sweep` and `classification_2d_sweep` the seed
counter is reset to `initial_seed` at the start of each `tau` iteration, so
the `k`-th config generated under `tau = 1` and the `k`-th config generated
under `tau = 10` carry equal seeds; hence (for `num_seed ≥ 1`) seeds repeat
across the returned sweep, whereas in `regression_sweep` seeds are unique. -/
theorem C9_seed_reset (num_seed : ℕ) (initial_seed : ℤ) :
    (∀ k : ℕ,
      ((classificationTauBlock 1 num_seed initial_seed)[k]?).map
          ProblemConfig.seed
        = ((classificationTauBlock 10 num_seed initial_seed)[k]?).map
            ProblemConfig.seed)
    ∧ (∀ k : ℕ,
      ((classification2dTauBlock 1 num_seed initial_seed)[k]?).map
          ProblemConfig.seed
        = ((classification2dTauBlock 10 num_seed initial_seed)[k]?).map
            ProblemConfig.seed)
    ∧ (1 ≤ num_seed →
        ∃ i j : ℕ, i ≠ j
          ∧ ((classification_sweep_configs num_seed initial_seed)[i]?).isSome
              = true
          ∧ ((classification_sweep_configs num_seed initial_seed)[i]?).map
                ProblemConfig.seed
              = ((classification_sweep_configs num_seed initial_seed)[j]?).map
                  ProblemConfig.seed)
    ∧ (∀ (i j : ℕ) (c d : ProblemConfig),
        (regression_sweep_configs num_seed initial_seed)[i]? = some c →
        (regression_sweep_configs num_seed initial_seed)[j]? = some d →
        c.seed = d.seed → i = j) := by
  have hblock1 : ∀ tau k,
      ((classificationTauBlock tau num_seed initial_seed)[k]?).map
          ProblemConfig.seed
        = if k < 36 * num_seed then some (initial_seed + 1 + (k : ℤ))
          else none := by
    intro tau k
    rw [classificationTauBlock_eq,
      seedBlocks_seed_getElem? _ _ (fun p z => rfl), classificationParams_length]
  have hblock2 : ∀ tau k,
      ((classification2dTauBlock tau num_seed initial_seed)[k]?).map
          ProblemConfig.seed
        = if k < 21 * num_seed then some (initial_seed + 1 + (k : ℤ))
          else none := by
    intro tau k
    rw [classification2dTauBlock_eq,
      seedBlocks_seed_getElem? _ _ (fun p z => rfl)]
    have : classification2dParams.length = 21 := by decide
    rw [this]
  refine ⟨?_, ?_, ?_, ?_⟩
  · intro k; rw [hblock1, hblock1]
  · intro k; rw [hblock2, hblock2]
  · intro hn
    refine ⟨0, 36 * num_seed, by positivity, ?_, ?_⟩
    · rw [classification_sweep_configs]
      simp only [List.flatMap_cons, List.flatMap_nil, List.append_nil]
      rw [List.getElem?_append_left (by
        rw [classificationTauBlock_eq, seedBlocks_length,
          classificationParams_length]
        omega)]
      have h0 := hblock1 1 0
      rw [if_pos (by omega)] at h0
      cases hx : (classificationTauBlock 1 num_seed initial_seed)[0]? with
      | none => rw [hx, Option.map_none'] at h0; exact absurd h0 (by simp)
      | some c => rfl
    · rw [classification_sweep_configs]
      simp only [List.flatMap_cons, List.flatMap_nil, List.append_nil]
      have hlen : (classificationTauBlock 1 num_seed initial_seed).length
          = 36 * num_seed := by
        rw [classificationTauBlock_eq, seedBlocks_length,
          classificationParams_length]
      rw [List.getElem?_append_left (by omega),
        List.getElem?_append_right (by omega), hlen, Nat.sub_self,
        hblock1 1 0, hblock1 10 0]
  · intro i j c d hi hj hseed
    rw [regression_sweep_configs_eq] at hi hj
    obtain ⟨p, _, hcp⟩ := seedBlocks_getElem? _ _ _ _ _ _ hi
    obtain ⟨q, _, hdq⟩ := seedBlocks_getElem? _ _ _ _ _ _ hj
    have hc : c.seed = initial_seed + 1 + (i : ℤ) := by rw [hcp]; rfl
    have hd : d.seed = initial_seed + 1 + (j : ℤ) := by rw [hdq]; rfl
    rw [hc, hd] at hseed
    omega


/-! ## C5: the reduced test sweeps -/

/-- Deduplication keeping the first occurrence of each value, in order:
the specification of what `_filter_unique_configs` does to the filtered
list. -/
def dedupKeepFirst : List ProblemConfig → List ProblemConfig
  | [] => []
  | c :: cs => c :: dedupKeepFirst (cs.filter (fun d => d != c))
  termination_by l => l.length
  decreasing_by
    simp only [List.length_cons]
    exact Nat.lt_succ_of_le (List.length_filter_le _ _)

theorem filter_unique_aux (f : ProblemConfig → Bool) :
    ∀ (l obs out : List ProblemConfig),
      (l.foldl
        (fun (acc : List ProblemConfig × List ProblemConfig) c =>
          if f c then
            (if c ∈ acc.1 then acc else (acc.1 ++ [c], acc.2 ++ [c]))
          else acc)
        (obs, out)).2
      = out ++ dedupKeepFirst
          ((l.filter f).filter (fun c => decide (c ∉ obs))) := by
  intro l
  induction l with
  | nil =>
      intro obs out
      simp [dedupKeepFirst]
  | cons c l ih =>
      intro obs out
      rw [List.foldl_cons, List.filter_cons]
      by_cases hf : f c = true
      · rw [if_pos hf, if_pos hf]
        by_cases hobs : c ∈ obs
        · rw [if_pos hobs, List.filter_cons, if_neg (by simpa using hobs), ih]
        · rw [if_neg hobs, List.filter_cons, if_pos (by simpa using hobs), ih]
          have hsplit :
              (l.filter f).filter (fun d => decide (d ∉ obs ++ [c]))
                = ((l.filter f).filter (fun d => decide (d ∉ obs))).filter
                    (fun d => d != c) := by
            simp only [List.filter_filter]
            apply List.filter_congr
            intro d _
            by_cases h1 : d ∈ obs <;> by_cases h2 : d = c <;>
              by_cases h3 : f d = true <;>
              simp [h1, h2, h3, List.mem_append]
          rw [hsplit]
          rw [show dedupKeepFirst
              (c :: (l.filter f).filter (fun d => decide (d ∉ obs)))
            = c :: dedupKeepFirst
                (((l.filter f).filter (fun d => decide (d ∉ obs))).filter
                  (fun d => d != c)) from by rw [dedupKeepFirst]]
          simp [List.append_assoc]
      · rw [if_neg hf, if_neg hf, ih]

theorem filter_unique_eq (configs : List ProblemConfig)
    (f : ProblemConfig → Bool) :
    filter_unique_configs configs f = dedupKeepFirst (configs.filter f) := by
  unfold filter_unique_configs
  rw [filter_unique_aux f configs [] []]
  rw [show (fun c : ProblemConfig => decide (c ∉ ([] : List ProblemConfig)))
      = (fun _ => true) from by funext c; simp]
  rw [List.filter_true, List.nil_append]

/-- C5: each reduced test sweep selects from the `num_seed = 1` full sweep
the configs matching its fixed filter and deduplicates them keeping first
occurrences in order; in particular `regression_test_sweep()` has exactly
one entry, with key `regression_test/0`, `classification_test_sweep()` has
4 entries and `classification_2d_test_sweep()` has 7 entries. -/
theorem C5_test_sweeps :
    (∀ (configs : List ProblemConfig) (f : ProblemConfig → Bool),
        filter_unique_configs configs f = dedupKeepFirst (configs.filter f))
    ∧ regression_test_sweep.length = 1
    ∧ regression_test_sweep.map Prod.fst = ["regression_test/0"]
    ∧ classification_test_sweep.length = 4
    ∧ classification_2d_test_sweep.length = 7 :=
  ⟨filter_unique_eq, by decide, by decide, by decide, by decide⟩


/-- Witness for C9 at `num_seed = 1`, `initial_seed = 0` (both
hypothesis-bearing conjuncts discharged at concrete inputs). -/
theorem C9_seed_reset_witness :
    (∃ i j : ℕ, i ≠ j
      ∧ ((classification_sweep_configs 1 0)[i]?).isSome = true
      ∧ ((classification_sweep_configs 1 0)[i]?).map ProblemConfig.seed
          = ((classification_sweep_configs 1 0)[j]?).map ProblemConfig.seed)
    ∧ (0 : ℕ) = 0 :=
  ⟨(C9_seed_reset 1 0).2.2.1 (by decide),
   (C9_seed_reset 1 0).2.2.2 0 0 (regressionConfig 1 1 (ratLit 1 100) 1)
     (regressionConfig 1 1 (ratLit 1 100) 1) (by decide) (by decide) rfl⟩


/-! ## C8: merging the sweeps into SETTINGS -/

/-- The key sets of two sweep dictionaries are disjoint. -/
def keysDisjoint (s t : List (String × ProblemConfig)) : Prop :=
  ∀ k, k ∈ sweepKeys s → k ∉ sweepKeys t

theorem conflict_iff (settings sweep : List (String × ProblemConfig)) :
    (sweep.any (fun kv => settings.any (fun kv2 => kv2.1 == kv.1)) = true)
      ↔ ∃ k, k ∈ sweepKeys sweep ∧ k ∈ sweepKeys settings := by
  constructor
  · intro h
    obtain ⟨kv, hkv, h2⟩ := List.any_eq_true.1 h
    obtain ⟨kv2, hkv2, h3⟩ := List.any_eq_true.1 h2
    refine ⟨kv.1, List.mem_map_of_mem _ hkv, ?_⟩
    rw [← beq_iff_eq.1 h3]
    exact List.mem_map_of_mem _ hkv2
  · rintro ⟨k, hk1, hk2⟩
    obtain ⟨kv, hkv, rfl⟩ := List.mem_map.1 hk1
    obtain ⟨kv2, hkv2, heq⟩ := List.mem_map.1 hk2
    exact List.any_eq_true.2
      ⟨kv, hkv, List.any_eq_true.2 ⟨kv2, hkv2, beq_iff_eq.2 heq⟩⟩

/-- How many of the sweeps contain the key `k`. -/
def keyCount (k : String) (sweeps : List (List (String × ProblemConfig))) :
    ℕ :=
  sweeps.countP (fun sw => decide (k ∈ sweepKeys sw))

theorem mergeAux_eq_none_iff :
    ∀ (sweeps : List (List (String × ProblemConfig)))
      (settings : List (String × ProblemConfig)),
      mergeAux settings sweeps = none
        ↔ ∃ k, 2 ≤ (if k ∈ sweepKeys settings then 1 else 0)
            + keyCount k sweeps := by
  intro sweeps
  induction sweeps with
  | nil =>
      intro settings
      rw [mergeAux]
      constructor
      · intro h; exact absurd h (by simp)
      · rintro ⟨k, hk⟩
        rw [keyCount, List.countP_nil] at hk
        split at hk <;> omega
  | cons sw rest ih =>
      intro settings
      rw [mergeAux]
      by_cases hc :
          sw.any (fun kv => settings.any (fun kv2 => kv2.1 == kv.1)) = true
      · rw [if_pos hc]
        obtain ⟨k, hks, hkset⟩ := (conflict_iff settings sw).1 hc
        constructor
        · intro _
          refine ⟨k, ?_⟩
          rw [if_pos hkset, keyCount, List.countP_cons,
            if_pos (by simpa using hks)]
          omega
        · intro _
          rfl
      · rw [if_neg hc, ih (settings ++ sw)]
        have hnc : ∀ k, ¬(k ∈ sweepKeys sw ∧ k ∈ sweepKeys settings) :=
          fun k hk => hc ((conflict_iff settings sw).2 ⟨k, hk⟩)
      
        apply exists_congr
        intro k
        have hkeys : sweepKeys (settings ++ sw)
            = sweepKeys settings ++ sweepKeys sw := List.map_append _ _ _
        rw [hkeys, keyCount, keyCount, List.countP_cons]
        have hthis := hnc k
        by_cases h1 : k ∈ sweepKeys settings <;>
          by_cases h2 : k ∈ sweepKeys sw
        · exact absurd ⟨h2, h1⟩ hthis
        · simp [List.mem_append, h1, h2]
        · simp [List.mem_append, h1, h2]
          constructor
          · intro hle
            have hpos :
                0 < List.countP (fun sw => decide (k ∈ sweepKeys sw)) rest :=
              by omega
            obtain ⟨a, ha, hka⟩ := List.countP_pos_iff.1 hpos
            exact ⟨a, ha, by simpa using hka⟩
          · rintro ⟨a, ha, hka⟩
            have hpos :
                0 < List.countP (fun sw => decide (k ∈ sweepKeys sw)) rest :=
              List.countP_pos_iff.2 ⟨a, ha, by simpa using hka⟩
            omega
        · simp [List.mem_append, h1, h2]

theorem mergeAux_eq_flatten :
    ∀ (sweeps : List (List (String × ProblemConfig)))
      (settings : List (String × ProblemConfig)),
      sweeps.Pairwise keysDisjoint →
      (∀ sw ∈ sweeps, keysDisjoint settings sw) →
      mergeAux settings sweeps = some (settings ++ sweeps.flatten) := by
  intro sweeps
  induction sweeps with
  | nil =>
      intro settings _ _
      rw [mergeAux]
      simp
  | cons sw rest ih =>
      intro settings hpw hds
      have hhead := hds sw (List.mem_cons_self sw rest)
      rw [mergeAux, if_neg (fun hc => ?conflict)]
      case conflict =>
        obtain ⟨k, hks, hkset⟩ := (conflict_iff settings sw).1 hc
        exact hhead k hkset hks
      rw [ih (settings ++ sw) (List.Pairwise.sublist (List.sublist_cons_self sw rest) hpw)
        (fun t ht k hk => ?tail)]
      case tail =>
        rw [sweepKeys, List.map_append, List.mem_append] at hk
        rcases hk with hk | hk
        · exact hds t (List.mem_cons_of_mem sw ht) k hk
        · exact (List.pairwise_cons.1 hpw).1 t ht k hk
      rw [List.flatten_cons, List.append_assoc]

theorem lookup_append_of_mem (k : String)
    (s X : List (String × ProblemConfig)) (h : k ∈ sweepKeys s) :
    (s ++ X).lookup k = s.lookup k := by
  induction s with
  | nil => simp [sweepKeys] at h
  | cons kv s ih =>
      rw [List.cons_append, List.lookup, List.lookup]
      by_cases hb : k == kv.1
      · rw [hb]
      · rw [Bool.not_eq_true] at hb
        rw [hb]
        apply ih
        rcases List.mem_cons.1 h with h1 | h1
        · exact absurd (beq_iff_eq.2 h1) (by simp [hb])
        · exact h1

theorem lookup_append_of_not_mem (k : String)
    (s X : List (String × ProblemConfig)) (h : k ∉ sweepKeys s) :
    (s ++ X).lookup k = X.lookup k := by
  induction s with
  | nil => rfl
  | cons kv s ih =>
      rw [List.cons_append, List.lookup]
      have hne : (k == kv.1) = false := by
        rw [beq_eq_false_iff_ne]
        intro hkk
        apply h
        rw [hkk]
        simp [sweepKeys]
      rw [hne]
      exact ih (fun hk => h (List.mem_cons_of_mem _ hk))

theorem flatten_lookup :
    ∀ (sweeps : List (List (String × ProblemConfig))),
      sweeps.Pairwise keysDisjoint →
      ∀ sw ∈ sweeps, ∀ k ∈ sweepKeys sw,
        sweeps.flatten.lookup k = sw.lookup k := by
  intro sweeps
  induction sweeps with
  | nil => intro _ sw hsw; exact absurd hsw (List.not_mem_nil sw)
  | cons s rest ih =>
      intro hpw sw hsw k hk
      rw [List.flatten_cons]
      rcases List.mem_cons.1 hsw with rfl | hsw'
      · exact lookup_append_of_mem k sw _ hk
      · have hk_not : k ∉ sweepKeys s :=
          fun hks => (List.pairwise_cons.1 hpw).1 sw hsw' k hks hk
        rw [lookup_append_of_not_mem k s _ hk_not]
        exact ih (List.pairwise_cons.1 hpw).2 sw hsw' k hk


theorem append_ne_of_take_ne (p q : String)
    (h1 : p.data ≠ q.data.take p.data.length)
    (h2 : q.data ≠ p.data.take q.data.length) :
    ∀ s t : String, p ++ s ≠ q ++ t := by
  intro s t heq
  have hd : p.data ++ s.data = q.data ++ t.data := by
    rw [← String.data_append, ← String.data_append, heq]
  rcases le_total p.data.length q.data.length with hle | hle
  · apply h1
    calc p.data = (p.data ++ s.data).take p.data.length := by
          rw [List.take_append_eq_append_take, Nat.sub_self, List.take_zero,
            List.append_nil, List.take_length]
    _ = (q.data ++ t.data).take p.data.length := by rw [hd]
    _ = q.data.take p.data.length := by
          rw [List.take_append_eq_append_take, Nat.sub_eq_zero_of_le hle,
            List.take_zero, List.append_nil]
  · apply h2
    calc q.data = (q.data ++ t.data).take q.data.length := by
          rw [List.take_append_eq_append_take, Nat.sub_self, List.take_zero,
            List.append_nil, List.take_length]
    _ = (p.data ++ s.data).take q.data.length := by rw [hd]
    _ = p.data.take q.data.length := by
          rw [List.take_append_eq_append_take, Nat.sub_eq_zero_of_le hle,
            List.take_zero, List.append_nil]

theorem sweepKeys_enumerateSweep (name : String) (cs : List ProblemConfig) :
    sweepKeys (enumerateSweep name cs)
      = (List.range cs.length).map (probId name) :=
  enumerateSweep_keys name cs

theorem enumerateSweep_disjoint (n1 n2 : String)
    (c1 c2 : List ProblemConfig)
    (h1 : (n1 ++ SEPARATOR).data
        ≠ ((n2 ++ SEPARATOR).data.take (n1 ++ SEPARATOR).data.length))
    (h2 : (n2 ++ SEPARATOR).data
        ≠ ((n1 ++ SEPARATOR).data.take (n2 ++ SEPARATOR).data.length)) :
    keysDisjoint (enumerateSweep n1 c1) (enumerateSweep n2 c2) := by
  intro k hk1 hk2
  rw [sweepKeys_enumerateSweep] at hk1 hk2
  obtain ⟨i, _, rfl⟩ := List.mem_map.1 hk1
  obtain ⟨j, _, hij⟩ := List.mem_map.1 hk2
  exact append_ne_of_take_ne (n1 ++ SEPARATOR) (n2 ++ SEPARATOR) h1 h2
    (toString i) (toString j) hij.symm

theorem SETTINGS_sweeps_pairwise : SETTINGS_sweeps.Pairwise keysDisjoint := by
  rw [SETTINGS_sweeps, regression_sweep, regression_test_sweep,
    enn_paper_sweep, enn_paper_test_sweep, classification_sweep,
    classification_test_sweep, classification_2d_sweep,
    classification_2d_test_sweep]
  simp only [List.pairwise_cons, List.mem_cons, List.not_mem_nil, or_false,
    forall_eq_or_imp, forall_eq]
  repeat' apply And.intro
  all_goals first
    | exact List.Pairwise.nil
    | exact fun a ha => ha.elim
    | (apply enumerateSweep_disjoint <;> decide)

/-- C8: `_merge_without_overwrite(sweeps)` raises `KeyError` exactly when
some problem-id key occurs in more than one of the input sweeps; for
pairwise-disjoint key sets it returns the union of all entries; and
`SETTINGS` maps every problem id of each of the eight component sweeps to
that sweep's config. -/
theorem C8_merge_without_overwrite :
    (∀ sweeps : List (List (String × ProblemConfig)),
        merge_without_overwrite sweeps = none
          ↔ ∃ k, 2 ≤ sweeps.countP (fun sw => decide (k ∈ sweepKeys sw)))
    ∧ (∀ sweeps : List (List (String × ProblemConfig)),
        sweeps.Pairwise keysDisjoint →
          merge_without_overwrite sweeps = some sweeps.flatten)
    ∧ (∀ sw ∈ SETTINGS_sweeps, ∀ k ∈ sweepKeys sw,
        SETTINGS.map (fun settings => settings.lookup k)
          = some (sw.lookup k)) := by
  have hdisj : ∀ sweeps : List (List (String × ProblemConfig)),
      sweeps.Pairwise keysDisjoint →
        merge_without_overwrite sweeps = some sweeps.flatten := by
    intro sweeps hpw
    rw [merge_without_overwrite]
    have h := mergeAux_eq_flatten sweeps [] hpw
      (fun sw _ k hk => by simp [sweepKeys] at hk)
    rw [h, List.nil_append]
  refine ⟨?_, hdisj, ?_⟩
  · intro sweeps
    rw [merge_without_overwrite, mergeAux_eq_none_iff]
    apply exists_congr
    intro k
    rw [if_neg (by simp [sweepKeys]), keyCount, Nat.zero_add]
  · intro sw hsw k hk
    have hset : SETTINGS = some SETTINGS_sweeps.flatten := by
      rw [SETTINGS]
      exact hdisj SETTINGS_sweeps SETTINGS_sweeps_pairwise
    rw [hset, Option.map_some']
    exact congrArg some
      (flatten_lookup SETTINGS_sweeps SETTINGS_sweeps_pairwise sw hsw k hk)

/-- Witness for C8: the disjoint-merge conjunct at the empty list of
sweeps, and the `SETTINGS` lookup conjunct at the sweep
`regression_test_sweep` and key `regression_test/0`. -/
theorem C8_merge_without_overwrite_witness :
    merge_without_overwrite [] = some ([] : List (List (String × ProblemConfig))).flatten
    ∧ SETTINGS.map (fun settings => settings.lookup "regression_test/0")
        = some (regression_test_sweep.lookup "regression_test/0") :=
  ⟨C8_merge_without_overwrite.2.1 [] List.Pairwise.nil,
   C8_merge_without_overwrite.2.2 regression_test_sweep
     (by rw [SETTINGS_sweeps]
         exact List.mem_cons_of_mem _ (List.mem_cons_self _ _))
     "regression_test/0" (by decide)⟩


/-! ## C1, C2, C7: the generative classification environment

`generative/classification_envlikelihood.py` itself is not among the
sources (only its test file is), so the environment is modelled from the
spec: synthetic training/test data are sampled from a known ground-truth
distribution (an MLP class-probability model over Gaussian inputs) and the
exact likelihood of the sampled test labels under that distribution is
returned alongside the test data.  Float arrays are idealised as matrices
of exact rationals; every entry being a well-defined rational is the
model's rendering of "no NaN entries". -/

/-- A float array of shape `(len, row length)`: a list of rows of exact
rationals. -/
abbrev Mat := List (List ℚ)

/-- `testbed_base.Data(x, y)`. -/
structure Data where
  x : Mat
  y : Mat

/-- Modelled from the spec: a stand-in for a single standard-normal draw of
`jax.random.normal`.  Only totality (the value is a well-defined rational,
never NaN) and the shapes of the arrays built from it matter to the
claims. -/
def stdNormal (key i j : ℕ) : ℚ := (key : ℚ) + 2 * i + 3 * j

/-- Modelled from the spec: `jax.random.normal(key, [n, d])`, an `n × d`
array of standard-normal draws. -/
def normalSample (key n d : ℕ) : Mat :=
  (List.range n).map (fun i => (List.range d).map (fun j => stdNormal key i j))

/-- `make_gaussian_sampler(input_dim)` (modelled from the spec): maps a key
and a number of samples to an `n_samples × input_dim` Gaussian draw. -/
def make_gaussian_sampler (input_dim : ℕ) : ℕ → ℕ → Mat :=
  fun key n_samples => normalSample key n_samples input_dim

/-- Modelled from the spec: `make_polyadic_sampler(input_dim, kappa)` draws
`kappa` Gaussian anchor points and returns a sampler producing, for a key
and `tau`, `tau` points of dimension `input_dim`, each an anchor plus a
local Gaussian perturbation. -/
def make_polyadic_sampler (input_dim kappa : ℕ) : ℕ → ℕ → Mat :=
  fun key tau =>
    let anchors := normalSample key kappa input_dim
    (List.range tau).map (fun i =>
      let anchor := anchors.getD (i % kappa) (List.replicate input_dim 0)
      let noise := (List.range input_dim).map (fun j =>
        stdNormal (key + 1 + i) 0 j)
      List.zipWith (· + ·) anchor noise)

/-- Modelled from the spec: a strictly positive stand-in for `exp`.  Only
positivity — which makes every softmax probability positive and hence the
log-likelihood finite — matters to the claims. -/
def pexp (z : ℚ) : ℚ := if 0 ≤ z then z + 1 else 1 / (1 - z)

theorem pexp_pos (z : ℚ) : 0 < pexp z := by
  rw [pexp]
  split
  · linarith
  · apply div_pos one_pos
    linarith

/-- `jax.nn.softmax` over one row of logits (with `pexp` for `exp`). -/
def softmaxProbs (logits : List ℚ) : List ℚ :=
  logits.map (fun z => pexp z / (logits.map pexp).sum)

/-- Modelled from the spec: `jax.random.categorical(key, logits)` — a class
label below `len(logits)` chosen by the key. -/
def categoricalSample (key : ℕ) (logits : List ℚ) : ℕ :=
  key % logits.length

/-- Modelled from the spec: a Haiku MLP logit function with `num_classes`
outputs; it applies row-wise to a batch of inputs. -/
def mlpLogitFn (key num_classes : ℕ) : Mat → Mat :=
  fun x => x.map (fun row =>
    (List.range num_classes).map (fun c => row.sum * ((c : ℚ) + 1) + key))

/-- Modelled from the spec: `ClassificationEnvLikelihood` holds the logit
function, both x generators, `num_train`, `tau` and the problem key. -/
structure ClassificationEnvLikelihood where
  logit_fn : Mat → Mat
  x_train_generator : ℕ → ℕ → Mat
  x_test_generator : ℕ → ℕ → Mat
  num_train : ℕ
  tau : ℕ
  key : ℕ

/-- A stand-in for `jax.random.split`. -/
def keySplit (key branch : ℕ) : ℕ := 2 * key + branch + 1

/-- Modelled from the spec: one label sampled from the class distribution
at each input row, returned as an `n × 1` column. -/
def sampleOutput (logit_fn : Mat → Mat) (x : Mat) (key : ℕ) : Mat :=
  (logit_fn x).enum.map
    (fun p => [((categoricalSample (key + p.1) p.2 : ℕ) : ℚ)])

/-- Modelled from the spec: `train_data` generated at construction:
`num_train` inputs from `x_train_generator` with sampled labels. -/
def ClassificationEnvLikelihood.train_data
    (env : ClassificationEnvLikelihood) : Data :=
  let x := env.x_train_generator (keySplit env.key 0) env.num_train
  Data.mk x (sampleOutput env.logit_fn x (keySplit env.key 1))

/-- The probability the generative model assigns to label `lab` at a row of
logits. -/
def classProb (logits : List ℚ) (lab : ℕ) : ℚ :=
  (softmaxProbs logits).getD lab 1

/-- Modelled from the spec: `test_data(key)` draws `tau` test inputs from
`x_test_generator`, samples their labels, and returns the data together
with the likelihood the generative model assigns to those labels (the code
returns its logarithm — the log-likelihood of the sampled test labels). -/
def ClassificationEnvLikelihood.test_data
    (env : ClassificationEnvLikelihood) (key : ℕ) : Data × ℚ :=
  let x := env.x_test_generator (keySplit key 0) env.tau
  let y := sampleOutput env.logit_fn x (keySplit key 1)
  let probs := (env.logit_fn x).enum.map
    (fun p => classProb p.2 (categoricalSample (keySplit key 1 + p.1) p.2))
  (Data.mk x y, probs.prod)

/-- The label recorded in a one-entry row of `y`. -/
def labelOf (row : List ℚ) : ℕ := (row.headD 0).num.toNat

/-- The likelihood of recorded labels `data.y` under the generative model
with logit function `logit_fn` at the inputs `data.x`: the product over
rows of the class probability of the recorded label (stated independently
of `test_data`, from the spec's description of the ground-truth
distribution). -/
def modelLikelihood (logit_fn : Mat → Mat) (data : Data) : ℚ :=
  ((List.zip (logit_fn data.x) data.y).map
    (fun p => classProb p.1 (labelOf p.2))).prod


theorem normalSample_length (key n d : ℕ) : (normalSample key n d).length = n := by
  simp [normalSample]

theorem normalSample_row_length (key n d : ℕ) :
    ∀ row ∈ normalSample key n d, row.length = d := by
  intro row hrow
  simp only [normalSample, List.mem_map, List.mem_range] at hrow
  obtain ⟨i, _, rfl⟩ := hrow
  simp

theorem mlpLogitFn_length (key c : ℕ) (x : Mat) :
    (mlpLogitFn key c x).length = x.length := by
  simp [mlpLogitFn]

theorem sampleOutput_length (f : Mat → Mat) (x : Mat) (key : ℕ) :
    (sampleOutput f x key).length = (f x).length := by
  simp [sampleOutput]

theorem sampleOutput_row_length (f : Mat → Mat) (x : Mat) (key : ℕ) :
    ∀ row ∈ sampleOutput f x key, row.length = 1 := by
  intro row hrow
  simp only [sampleOutput, List.mem_map] at hrow
  obtain ⟨p, _, rfl⟩ := hrow
  rfl

/-- The environment constructed by
`MLPClassificationEnsembleTest.test_valid_data`: a two-class MLP logit
function, Gaussian train and test x-generators of dimension `input_dim`,
`num_train` training points and `tau` test points. -/
def testbedEnv (num_train input_dim tau seed : ℕ) :
    ClassificationEnvLikelihood :=
  { logit_fn := mlpLogitFn (keySplit seed 0) 2
    x_train_generator := fun k n => normalSample k n input_dim
    x_test_generator := make_gaussian_sampler input_dim
    num_train := num_train
    tau := tau
    key := keySplit seed 1 }

/-- C1: for `num_train ∈ {3, 10}`, `input_dim ∈ {1, 3}`, `tau ∈ {1, 3}` and
every seed, the environment's `train_data` has `x` of shape
`(num_train, input_dim)` and `y` of shape `(num_train, 1)`, and for every
PRNG key `test_data` has `x` of shape `(tau, input_dim)` and `y` of shape
`(tau, 1)`; every entry is a well-defined rational (the model's rendering
of "no NaN"). -/
theorem C1_valid_data (num_train input_dim tau : ℕ)
    (h1 : num_train ∈ ([3, 10] : List ℕ)) (h2 : input_dim ∈ ([1, 3] : List ℕ))
    (h3 : tau ∈ ([1, 3] : List ℕ)) (seed : ℕ) :
    ((testbedEnv num_train input_dim tau seed).train_data.x.length = num_train
      ∧ (∀ row ∈ (testbedEnv num_train input_dim tau seed).train_data.x,
          row.length = input_dim)
      ∧ (testbedEnv num_train input_dim tau seed).train_data.y.length
          = num_train
      ∧ (∀ row ∈ (testbedEnv num_train input_dim tau seed).train_data.y,
          row.length = 1))
    ∧ ∀ key : ℕ,
        ((testbedEnv num_train input_dim tau seed).test_data key).1.x.length
            = tau
        ∧ (∀ row ∈ ((testbedEnv num_train input_dim tau seed).test_data
              key).1.x, row.length = input_dim)
        ∧ ((testbedEnv num_train input_dim tau seed).test_data key).1.y.length
            = tau
        ∧ (∀ row ∈ ((testbedEnv num_train input_dim tau seed).test_data
              key).1.y, row.length = 1) := by
  constructor
  · refine ⟨?_, ?_, ?_, ?_⟩
    · exact normalSample_length _ _ _
    · exact normalSample_row_length _ _ _
    · rw [show (testbedEnv num_train input_dim tau seed).train_data.y
          = sampleOutput (mlpLogitFn (keySplit seed 0) 2)
              (normalSample (keySplit (keySplit seed 1) 0) num_train input_dim)
              (keySplit (keySplit seed 1) 1) from rfl,
        sampleOutput_length, mlpLogitFn_length, normalSample_length]
    · exact sampleOutput_row_length _ _ _
  · intro key
    refine ⟨?_, ?_, ?_, ?_⟩
    · exact normalSample_length _ _ _
    · exact normalSample_row_length _ _ _
    · rw [show ((testbedEnv num_train input_dim tau seed).test_data key).1.y
          = sampleOutput (mlpLogitFn (keySplit seed 0) 2)
              (normalSample (keySplit key 0) tau input_dim)
              (keySplit key 1) from rfl,
        sampleOutput_length, mlpLogitFn_length, normalSample_length]
    · exact sampleOutput_row_length _ _ _

/-- Witness for C1 at `num_train = 3`, `input_dim = 1`, `tau = 1`,
`seed = 0`. -/
theorem C1_valid_data_witness :
    (testbedEnv 3 1 1 0).train_data.x.length = 3 :=
  (C1_valid_data 3 1 1 (by decide) (by decide) (by decide) 0).1.1


theorem classProb_pos (logits : List ℚ) (lab : ℕ) :
    0 < classProb logits lab := by
  rw [classProb]
  by_cases h : lab < (softmaxProbs logits).length
  · rw [List.getD_eq_getElem _ _ h]
    have hmem : (softmaxProbs logits)[lab] ∈ softmaxProbs logits :=
      List.getElem_mem h
    obtain ⟨z, hz, hval⟩ := List.mem_map.1 hmem
    rw [← hval]
    apply div_pos (pexp_pos z)
    apply List.sum_pos
    · intro a ha
      obtain ⟨w, _, rfl⟩ := List.mem_map.1 ha
      exact pexp_pos w
    · intro hnil
      rw [List.map_eq_nil_iff] at hnil
      rw [softmaxProbs, hnil] at h
      simp at h
  · rw [List.getD_eq_default]
    · exact one_pos
    · omega

theorem zip_sample_map (k : ℕ) :
    ∀ (L : List (List ℚ)) (n : ℕ),
      (List.zip L ((List.enumFrom n L).map
          (fun p => [((categoricalSample (k + p.1) p.2 : ℕ) : ℚ)]))).map
        (fun p => classProb p.1 (labelOf p.2))
      = (List.enumFrom n L).map
          (fun p => classProb p.2 (categoricalSample (k + p.1) p.2)) := by
  intro L
  induction L with
  | nil => intro n; rfl
  | cons r L ih =>
      intro n
      rw [List.enumFrom_cons]
      simp only [List.map_cons, List.zip_cons_cons]
      have hlabel :
          labelOf [((categoricalSample (k + n) r : ℕ) : ℚ)]
            = categoricalSample (k + n) r := by
        rw [labelOf]
        simp
      rw [hlabel, ih (n + 1)]

/-- C2: for every environment and every PRNG key, the second component of
`test_data(key)` is exactly the likelihood the known generative model
assigns to the sampled test labels, it is strictly positive, and therefore
its logarithm — the returned log-likelihood — exists as a finite real
number (never NaN or infinite). -/
theorem C2_test_data_log_likelihood (env : ClassificationEnvLikelihood)
    (key : ℕ) :
    (env.test_data key).2 = modelLikelihood env.logit_fn (env.test_data key).1
    ∧ 0 < (env.test_data key).2
    ∧ ∃ l : ℝ, Real.exp l = ((env.test_data key).2 : ℝ) := by
  have hform : (env.test_data key).2
      = ((env.logit_fn (env.x_test_generator (keySplit key 0)
            env.tau)).enum.map
          (fun p => classProb p.2
            (categoricalSample (keySplit key 1 + p.1) p.2))).prod := rfl
  have hpos : 0 < (env.test_data key).2 := by
    rw [hform]
    apply List.prod_pos
    intro a ha
    obtain ⟨p, _, rfl⟩ := List.mem_map.1 ha
    exact classProb_pos _ _
  refine ⟨?_, hpos, ?_⟩
  · exact (congrArg List.prod (zip_sample_map (keySplit key 1)
      (env.logit_fn (env.x_test_generator (keySplit key 0) env.tau)) 0)).symm
  · exact ⟨Real.log ((env.test_data key).2 : ℝ),
      Real.exp_log (by exact_mod_cast hpos)⟩


/-- C7: for `input_dim ∈ {1, 10}`, `tau ∈ {1, 10}`, `kappa ∈ {1, 2}` and
every PRNG key, the sampler returned by
`make_polyadic_sampler(input_dim, kappa)` maps a key and `tau` to an array
of shape `(tau, input_dim)`; every entry is a well-defined rational (the
model's rendering of "no NaN entries"). -/
theorem C7_polyadic_sampler (input_dim tau kappa : ℕ)
    (h1 : input_dim ∈ ([1, 10] : List ℕ)) (h2 : tau ∈ ([1, 10] : List ℕ))
    (h3 : kappa ∈ ([1, 2] : List ℕ)) (key : ℕ) :
    (make_polyadic_sampler input_dim kappa key tau).length = tau
    ∧ ∀ row ∈ make_polyadic_sampler input_dim kappa key tau,
        row.length = input_dim := by
  have hk : 0 < kappa := by
    have h : kappa = 1 ∨ kappa = 2 := by simpa using h3
    omega
  constructor
  · simp [make_polyadic_sampler]
  · intro row hrow
    simp only [make_polyadic_sampler, List.mem_map, List.mem_range] at hrow
    obtain ⟨i, _, rfl⟩ := hrow
    rw [List.length_zipWith]
    have hanchor :
        ((normalSample key kappa input_dim).getD (i % kappa)
          (List.replicate input_dim 0)).length = input_dim := by
      have hmod : i % kappa < (normalSample key kappa input_dim).length := by
        rw [normalSample_length]
        exact Nat.mod_lt i hk
      rw [List.getD_eq_getElem _ _ hmod]
      exact normalSample_row_length key kappa input_dim _
        (List.getElem_mem hmod)
    rw [hanchor]
    simp

/-- Witness for C7 at `input_dim = 1`, `tau = 1`, `kappa = 1`, `key = 0`. -/
theorem C7_polyadic_sampler_witness :
    (make_polyadic_sampler 1 1 0 1).length = 1 :=
  (C7_polyadic_sampler 1 1 1 (by decide) (by decide) (by decide) 0).1

end NeuralTestbed
